import Mathlib

/-!
Shallow embedding of the mario-rust platformer core simulation
(src/game/physics.rs, world.rs, player.rs, enemy.rs, mod.rs).

Machine `f32` values are modelled as exact rationals `ℚ`; the algorithms
under scrutiny are pure arithmetic-and-comparison programs, translated
statement by statement.  Rust strings are modelled as `List Char`.
-/

/-- Model of `f32::EPSILON` (2⁻²³), used in the source for near-zero tests. -/
def f32_eps : ℚ := 1 / 8388608

/-- Model of `f32::min` (kernel-reducible, unlike the lattice `min`). -/
def rmin (a b : ℚ) : ℚ := if a ≤ b then a else b

/-- Model of `f32::max` (kernel-reducible, unlike the lattice `max`). -/
def rmax (a b : ℚ) : ℚ := if a ≤ b then b else a

theorem rmin_eq_min (a b : ℚ) : rmin a b = min a b := by
  simp [rmin, min_def]

theorem rmax_eq_max (a b : ℚ) : rmax a b = max a b := by
  rcases le_or_lt a b with h | h
  · simp [rmax, max_def, h]
  · simp [rmax, max_def, not_le.mpr h, le_of_lt h]

/-- Model of `macroquad::math::Vec2` as an exact pair of rationals. -/
structure Vec2 where
  x : ℚ
  y : ℚ
deriving DecidableEq, Repr

/-- Model of `macroquad::math::Rect`. -/
structure Rect where
  x : ℚ
  y : ℚ
  w : ℚ
  h : ℚ
deriving DecidableEq, Repr

/-- `physics::rect_at` — the actor rectangle at a position. -/
def rect_at (pos size : Vec2) : Rect :=
  ⟨pos.x, pos.y, size.x, size.y⟩

/-- `physics::rects_intersect` — strict (half-open) AABB overlap test. -/
def rects_intersect (a b : Rect) : Prop :=
  a.x < b.x + b.w ∧ a.x + a.w > b.x ∧ a.y < b.y + b.h ∧ a.y + a.h > b.y

instance (a b : Rect) : Decidable (rects_intersect a b) := by
  unfold rects_intersect; infer_instance

/-- `physics::approach` — move `value` toward `target` by at most `delta`. -/
def approach (value target delta : ℚ) : ℚ :=
  if value < target then
    rmin (value + delta) target
  else
    rmax (value - delta) target

/-- Loop state of the X sweep inside `move_with_collisions`:
current `pos.x`, `vel.x` and the actor rectangle. -/
structure XSweep where
  px : ℚ
  vx : ℚ
  rect : Rect
deriving DecidableEq, Repr

/-- One iteration of the X-axis solid loop in `move_with_collisions`. -/
def xCollide (size : Vec2) (s : XSweep) (solid : Rect) : XSweep :=
  if rects_intersect s.rect solid then
    let px :=
      if s.vx > 0 then solid.x - size.x
      else if s.vx < 0 then solid.x + solid.w
      else s.px
    { px := px, vx := 0, rect := { s.rect with x := px } }
  else s

/-- Loop state of the Y sweep inside `move_with_collisions`. -/
structure YSweep where
  py : ℚ
  vy : ℚ
  on_ground : Bool
  rect : Rect
deriving DecidableEq, Repr

/-- One iteration of the Y-axis solid loop in `move_with_collisions`. -/
def yCollide (size : Vec2) (s : YSweep) (solid : Rect) : YSweep :=
  if rects_intersect s.rect solid then
    if s.vy > 0 then
      { py := solid.y - size.y, vy := 0, on_ground := true,
        rect := { s.rect with y := solid.y - size.y } }
    else if s.vy < 0 then
      { py := solid.y + solid.h, vy := 0, on_ground := s.on_ground,
        rect := { s.rect with y := solid.y + solid.h } }
    else
      { py := s.py, vy := 0, on_ground := s.on_ground,
        rect := { s.rect with y := s.py } }
  else s

/-- `physics::move_with_collisions` — axis-separated sweep, X then Y,
returning `(new_pos, new_vel, on_ground)`. -/
def move_with_collisions (pos size vel : Vec2) (solids : List Rect) (dt : ℚ) :
    Vec2 × Vec2 × Bool :=
  let px0 := pos.x + vel.x * dt
  let xs := solids.foldl (xCollide size) ⟨px0, vel.x, rect_at ⟨px0, pos.y⟩ size⟩
  let py0 := pos.y + vel.y * dt
  let ys := solids.foldl (yCollide size)
    ⟨py0, vel.y, false, { xs.rect with y := py0 }⟩
  (⟨xs.px, ys.py⟩, ⟨xs.vx, ys.vy⟩, ys.on_ground)

/-- `Config` (src/game/mod.rs) — immutable tunable constants. -/
structure Config where
  fixed_dt : ℚ
  max_frame_time : ℚ
  tile_size : ℚ
  player_size : Vec2
  move_speed : ℚ
  move_accel : ℚ
  move_decel : ℚ
  gravity : ℚ
  terminal_velocity : ℚ
  jump_speed : ℚ
  coyote_time : ℚ
  jump_buffer_time : ℚ
  jump_cut_multiplier : ℚ
  stomp_bounce : ℚ
  enemy_size : Vec2
  enemy_speed : ℚ
  mushroom_size : Vec2
  hurt_invuln_time : ℚ
  hurt_knockback_x : ℚ
  hurt_knockback_y : ℚ
deriving DecidableEq, Repr

/-- `Config::default` (src/game/mod.rs). -/
def cfgDefault : Config where
  fixed_dt := 1 / 60
  max_frame_time := 1 / 4
  tile_size := 32
  player_size := ⟨22, 28⟩
  move_speed := 220
  move_accel := 1600
  move_decel := 2000
  gravity := 1200
  terminal_velocity := 780
  jump_speed := 420
  coyote_time := 1 / 10
  jump_buffer_time := 12 / 100
  jump_cut_multiplier := 1 / 2
  stomp_bounce := 320
  enemy_size := ⟨24, 20⟩
  enemy_speed := 65
  mushroom_size := ⟨24, 22⟩
  hurt_invuln_time := 3 / 4
  hurt_knockback_x := 200
  hurt_knockback_y := 260

/-- `World` (src/game/world.rs): static geometry plus mutable collectibles. -/
structure World where
  solids : List Rect
  solid_tiles : List Bool
  coins : List Vec2
  mushrooms : List Vec2
  enemy_spawns : List Vec2
  player_spawn : Vec2
  goal_tile : Vec2
  width : ℕ
  height : ℕ
deriving DecidableEq, Repr

/-- `World::is_solid_tile` — bounds-checked grid lookup; out-of-range is
never solid. -/
def World.is_solid_tile (w : World) (col row : ℤ) : Bool :=
  if col < 0 ∨ row < 0 then false
  else
    let c := col.toNat
    let r := row.toNat
    if c ≥ w.width ∨ r ≥ w.height then false
    else w.solid_tiles.getD (r * w.width + c) false

/-- The `for row in start_row..height` scan inside `World::ground_y_for_x`,
with `fuel` the number of rows left to visit. -/
def groundScan (w : World) (tile : ℚ) (col : ℤ) : ℕ → ℕ → Option ℚ
  | 0, _ => none
  | fuel + 1, row =>
    if w.is_solid_tile col (row : ℤ) then some ((row : ℚ) * tile)
    else groundScan w tile col fuel (row + 1)

/-- `World::ground_y_for_x` — top-edge world Y of the first solid tile in
the column of `world_x` scanning downward from the row of `start_y`. -/
def World.ground_y_for_x (w : World) (world_x start_y : ℚ) (config : Config) :
    Option ℚ :=
  let tile := config.tile_size
  let col : ℤ := ⌊world_x / tile⌋
  let start_row : ℕ := (max ⌊start_y / tile⌋ 0).toNat
  groundScan w tile col (w.height - start_row) start_row

/-- `World::goal_trigger_rect` — the goal-pole rectangle. -/
def World.goal_trigger_rect (w : World) (config : Config) : Rect :=
  let tile := config.tile_size
  let goal_center_x := w.goal_tile.x + tile * (1 / 2)
  let base_y := (w.ground_y_for_x goal_center_x w.goal_tile.y config).getD
    (w.goal_tile.y + tile)
  let pole_height := tile * 3
  let pole_w := tile * (18 / 100)
  let pole_x := goal_center_x - pole_w * (1 / 2)
  let pole_y := base_y - pole_height
  ⟨pole_x, pole_y, pole_w, pole_height⟩

/-- Model of Rust `str::lines` on a character list: split on newline
characters. -/
def splitLines : List Char → List (List Char)
  | [] => [[]]
  | c :: rest =>
    if c = '\n' then [] :: splitLines rest
    else
      match splitLines rest with
      | [] => [[c]]
      | l :: ls => (c :: l) :: ls

/-- Model of Rust `str::trim_end`: drop trailing whitespace characters. -/
def trimRightChars (cs : List Char) : List Char :=
  (cs.reverse.dropWhile (fun c => c.isWhitespace)).reverse

/-- The line preprocessing of `World::from_ascii`: split into lines,
trim trailing whitespace, keep non-empty lines. -/
def levelLines (contents : List Char) : List (List Char) :=
  ((splitLines contents).map trimRightChars).filter (fun l => !l.isEmpty)

/-- The row-major cell stream `(row, col, char)` that the nested
`for (row, line) / for (col, ch)` loops of `World::from_ascii` visit. -/
def cellsOfLines (lines : List (List Char)) : List (ℕ × ℕ × Char) :=
  (lines.enum.map (fun rl => rl.2.enum.map (fun cc => (rl.1, cc.1, cc.2)))).flatten

/-- Mutable local state of the parse loop in `World::from_ascii`. -/
structure ParseAcc where
  solid_tiles : List Bool
  solids : List Rect
  coins : List Vec2
  mushroom_tiles : List Vec2
  enemy_spawns : List Vec2
  player_spawn : Option Vec2
  goal_tile : Option Vec2
deriving DecidableEq, Repr

/-- The recognised tile characters of the level format. -/
def validChar (ch : Char) : Bool :=
  ch = '#' || ch = 'C' || ch = 'M' || ch = 'E' || ch = 'P' || ch = 'G' || ch = '.'

/-- One `match ch` arm of the parse loop in `World::from_ascii`. -/
def parseCell (tile_size : ℚ) (width : ℕ) (acc : ParseAcc)
    (cell : ℕ × ℕ × Char) : Except String ParseAcc :=
  let row := cell.1
  let col := cell.2.1
  let ch := cell.2.2
  let world_x := (col : ℚ) * tile_size
  let world_y := (row : ℚ) * tile_size
  let tile_pos : Vec2 := ⟨world_x, world_y⟩
  if ch = '#' then
    .ok { acc with
      solid_tiles := acc.solid_tiles.set (row * width + col) true,
      solids := acc.solids ++ [rect_at tile_pos ⟨tile_size, tile_size⟩] }
  else if ch = 'C' then
    .ok { acc with coins := acc.coins ++
      [⟨world_x + tile_size * (1 / 2), world_y + tile_size * (1 / 2)⟩] }
  else if ch = 'M' then
    .ok { acc with mushroom_tiles := acc.mushroom_tiles ++ [tile_pos] }
  else if ch = 'E' then
    .ok { acc with enemy_spawns := acc.enemy_spawns ++ [tile_pos] }
  else if ch = 'P' then
    match acc.player_spawn with
    | some _ => .error "Multiple player spawns found"
    | none => .ok { acc with player_spawn := some tile_pos }
  else if ch = 'G' then
    match acc.goal_tile with
    | some _ => .error "Multiple goal tiles found"
    | none => .ok { acc with goal_tile := some tile_pos }
  else if ch = '.' then
    .ok acc
  else
    .error "Unexpected tile"

/-- The cell loop of `World::from_ascii`, returning at the first error
(the `return Err(...)` early exits of the Rust `for` loops). -/
def parseFold (ts : ℚ) (width : ℕ) :
    ParseAcc → List (ℕ × ℕ × Char) → Except String ParseAcc
  | acc, [] => .ok acc
  | acc, cell :: cells =>
    match parseCell ts width acc cell with
    | .error e => .error e
    | .ok acc2 => parseFold ts width acc2 cells

/-- The mushroom placement computed at the end of `World::from_ascii`. -/
def placeMushroom (world0 : World) (config : Config) (tile_pos : Vec2) : Vec2 :=
  let size := config.mushroom_size
  let tile := config.tile_size
  let x := tile_pos.x + (tile - size.x) * (1 / 2)
  let sample_x := tile_pos.x + tile * (1 / 2)
  let base_y := (world0.ground_y_for_x sample_x tile_pos.y config).getD
    (tile_pos.y + tile)
  ⟨x, base_y - size.y⟩

/-- `World::from_ascii` — parse an ASCII level into a `World`. -/
def World.from_ascii (contents : List Char) (config : Config) :
    Except String World :=
  let lines := levelLines contents
  let height := lines.length
  let width := (lines.map List.length).foldr max 0
  if width = 0 ∨ height = 0 then .error "Level has no tiles"
  else
    let init : ParseAcc :=
      ⟨List.replicate (width * height) false, [], [], [], [], none, none⟩
    match parseFold config.tile_size width init (cellsOfLines lines) with
    | .error e => .error e
    | .ok acc =>
      match acc.player_spawn with
      | none => .error "Missing player spawn"
      | some player_spawn =>
        match acc.goal_tile with
        | none => .error "Missing goal tile"
        | some goal_tile =>
          let world0 : World :=
            ⟨acc.solids, acc.solid_tiles, acc.coins, [], acc.enemy_spawns,
              player_spawn, goal_tile, width, height⟩
          .ok { world0 with
            mushrooms := acc.mushroom_tiles.map (placeMushroom world0 config) }

/-- `InputState` (src/game/mod.rs) — latched per-step input intent. -/
structure InputState where
  move_x : ℚ
  jump_pressed : Bool
  jump_released : Bool
  start_pressed : Bool
  restart_pressed : Bool
  quit_pressed : Bool
deriving DecidableEq, Repr

/-- Model of `f32::signum` (for inputs away from zero). -/
def signumQ (x : ℚ) : ℚ := if x < 0 then -1 else 1

/-- `Player` (src/game/player.rs). -/
structure Player where
  pos : Vec2
  vel : Vec2
  on_ground : Bool
  size : Vec2
  facing : ℚ
  coyote_timer : ℚ
  jump_buffer_timer : ℚ
  powered : Bool
  invuln_timer : ℚ
deriving DecidableEq, Repr

/-- `Player::new` — spawn a player centred on the spawn tile. -/
def Player.new (spawn : Vec2) (config : Config) : Player :=
  let size := config.player_size
  { pos := ⟨spawn.x + (config.tile_size - size.x) * (1 / 2),
            spawn.y + (config.tile_size - size.y)⟩
    vel := ⟨0, 0⟩
    on_ground := false
    size := size
    facing := 1
    coyote_timer := 0
    jump_buffer_timer := 0
    powered := false
    invuln_timer := 0 }

/-- `Player::reset` — reinitialise every field from the spawn template. -/
def Player.reset (_p : Player) (spawn : Vec2) (config : Config) : Player :=
  Player.new spawn config

/-- `Player::rect`. -/
def Player.rect (p : Player) : Rect := rect_at p.pos p.size

/-- `Player::is_invulnerable`. -/
def Player.is_invulnerable (p : Player) : Prop := p.invuln_timer > 0

instance (p : Player) : Decidable p.is_invulnerable := by
  unfold Player.is_invulnerable; infer_instance

/-- Steps 1–6 of `Player::update`: invulnerability decay, jump-buffer
update, jump cut, coyote update, facing, horizontal `approach`. -/
def Player.preMovePhase (p : Player) (input : InputState) (config : Config)
    (dt : ℚ) : Player :=
  let invuln_timer := rmax (p.invuln_timer - dt) 0
  let jump_buffer_timer :=
    if input.jump_pressed then config.jump_buffer_time
    else rmax (p.jump_buffer_timer - dt) 0
  let vy :=
    if input.jump_released ∧ p.vel.y < 0 then p.vel.y * config.jump_cut_multiplier
    else p.vel.y
  let coyote_timer :=
    if p.on_ground then config.coyote_time
    else rmax (p.coyote_timer - dt) 0
  let facing := if |input.move_x| > f32_eps then signumQ input.move_x else p.facing
  let target_speed := input.move_x * config.move_speed
  let accel :=
    if |input.move_x| > f32_eps then config.move_accel else config.move_decel
  let vx := approach p.vel.x target_speed (accel * dt)
  { p with
    invuln_timer := invuln_timer
    jump_buffer_timer := jump_buffer_timer
    coyote_timer := coyote_timer
    facing := facing
    vel := ⟨vx, vy⟩ }

/-- The shared jump-trigger assignments of `Player::update`:
`vel.y = -jump_speed`, not grounded, both timers cleared. -/
def Player.doJump (p : Player) (config : Config) : Player :=
  { p with
    vel := ⟨p.vel.x, -config.jump_speed⟩
    on_ground := false
    coyote_timer := 0
    jump_buffer_timer := 0 }

/-- Steps 8–9 of `Player::update`: gravity with terminal velocity, then
the collision kernel. -/
def Player.gravityMove (p : Player) (world : World) (config : Config)
    (dt : ℚ) : Player :=
  let vy := rmin (p.vel.y + config.gravity * dt) config.terminal_velocity
  let m := move_with_collisions p.pos p.size ⟨p.vel.x, vy⟩ world.solids dt
  { p with pos := m.1, vel := m.2.1, on_ground := m.2.2 }

/-- `Player::update` — one fixed step; returns the player and whether a
jump was triggered. -/
def Player.update (p : Player) (input : InputState) (world : World)
    (config : Config) (dt : ℚ) : Player × Bool :=
  let a := p.preMovePhase input config dt
  let pre := a.jump_buffer_timer > 0 ∧ a.coyote_timer > 0
  let b := if pre then a.doJump config else a
  let c := b.gravityMove world config dt
  let post := c.jump_buffer_timer > 0 ∧ c.on_ground = true
  if post then (c.doJump config, true) else (c, decide pre)

/-- `Enemy` (src/game/enemy.rs). -/
structure Enemy where
  pos : Vec2
  vel : Vec2
  dir : ℚ
  alive : Bool
  size : Vec2
  on_ground : Bool
deriving DecidableEq, Repr

/-- `Enemy::new` — spawn on the ground below the spawn tile, walking left. -/
def Enemy.new (tile_pos : Vec2) (world : World) (config : Config) : Enemy :=
  let size := config.enemy_size
  let tile := config.tile_size
  let x := tile_pos.x + (tile - size.x) * (1 / 2)
  let sample_x := tile_pos.x + tile * (1 / 2)
  let base_y := (world.ground_y_for_x sample_x tile_pos.y config).getD
    (tile_pos.y + tile)
  { pos := ⟨x, base_y - size.y⟩
    vel := ⟨0, 0⟩
    dir := -1
    alive := true
    size := size
    on_ground := false }

/-- `Enemy::reset` — full reinitialisation from the spawn template. -/
def Enemy.reset (_e : Enemy) (tile_pos : Vec2) (world : World)
    (config : Config) : Enemy :=
  Enemy.new tile_pos world config

/-- `Enemy::rect`. -/
def Enemy.rect (e : Enemy) : Rect := rect_at e.pos e.size

/-- Gravity, desired patrol velocity and kernel move of `Enemy::update`;
also returns the `hit_wall` observation. -/
def Enemy.moveStep (e : Enemy) (world : World) (config : Config) (dt : ℚ) :
    Enemy × Bool :=
  let vy := rmin (e.vel.y + config.gravity * dt) config.terminal_velocity
  let vx := config.enemy_speed * e.dir
  let desired_x := vx
  let m := move_with_collisions e.pos e.size ⟨vx, vy⟩ world.solids dt
  let hit_wall := decide (|desired_x| > f32_eps ∧ |m.2.1.x| ≤ f32_eps)
  ({ e with pos := m.1, vel := m.2.1, on_ground := m.2.2 }, hit_wall)

/-- The ledge-probe test of `Enemy::update`: the probe point one pixel
beyond the leading foot, one pixel below the feet. -/
def Enemy.ledgeSupported (e : Enemy) (world : World) (config : Config) : Prop :=
  let foot_x := if e.dir ≥ 0 then e.pos.x + e.size.x + 1 else e.pos.x - 1
  let foot_y := e.pos.y + e.size.y + 1
  (world.ground_y_for_x foot_x foot_y config).map
    (fun ground_y => decide (ground_y ≤ foot_y)) = some true

instance (e : Enemy) (world : World) (config : Config) :
    Decidable (e.ledgeSupported world config) := by
  unfold Enemy.ledgeSupported; infer_instance

/-- The wall/ledge turn logic of `Enemy::update`. -/
def Enemy.turnStep (e : Enemy) (hit_wall : Bool) (world : World)
    (config : Config) : Enemy :=
  if hit_wall then
    { e with dir := -e.dir, vel := ⟨config.enemy_speed * -e.dir, e.vel.y⟩ }
  else if e.on_ground ∧ ¬e.ledgeSupported world config then
    { e with dir := -e.dir, vel := ⟨config.enemy_speed * -e.dir, e.vel.y⟩ }
  else e

/-- The world-bounds clamp at the end of `Enemy::update`. -/
def Enemy.boundsStep (e : Enemy) (world : World) (config : Config) : Enemy :=
  let world_w := (world.width : ℚ) * config.tile_size
  if e.pos.x ≤ 0 then
    { e with pos := ⟨0, e.pos.y⟩, dir := 1 }
  else if e.pos.x + e.size.x ≥ world_w then
    { e with pos := ⟨rmax (world_w - e.size.x) 0, e.pos.y⟩, dir := -1 }
  else e

/-- `Enemy::update` — one fixed step of the patrol automaton. -/
def Enemy.update (e : Enemy) (world : World) (config : Config) (dt : ℚ) :
    Enemy :=
  if e.alive = false then e
  else
    let em := e.moveStep world config dt
    ((em.1.turnStep em.2 world config).boundsStep world config)

/-- `GameState` (src/game/mod.rs). -/
inductive GameState where
  | Title
  | Playing
  | LevelComplete
deriving DecidableEq, Repr

/-- `u32::MAX`, the saturation bound of the score. -/
def u32Max : ℕ := 4294967295

/-- Model of `u32::saturating_add` (scores modelled as `ℕ ≤ u32Max`). -/
def satAddU32 (a b : ℕ) : ℕ := if a + b ≤ u32Max then a + b else u32Max

/-- `Game` (src/game/mod.rs), without the audio/sprite presentation
collaborators. -/
structure Game where
  state : GameState
  accumulator : ℚ
  config : Config
  world : World
  player : Player
  enemies : List Enemy
  coin_spawns : List Vec2
  mushroom_spawns : List Vec2
  score : ℕ
  high_score : ℕ
  input : InputState
deriving DecidableEq, Repr

/-- `Game::add_score` — saturating add, tracking the running high score. -/
def Game.add_score (g : Game) (points : ℕ) : Game :=
  let score := satAddU32 g.score points
  { g with score := score, high_score := max g.high_score score }

/-- The zip-with-spawns enemy reset loop of `Game::reset_level`:
enemies beyond the spawn list are left untouched. -/
def resetEnemies (enemies : List Enemy) (spawns : List Vec2) (world : World)
    (config : Config) : List Enemy :=
  match enemies, spawns with
  | [], _ => []
  | es, [] => es
  | e :: es, s :: ss => e.reset s world config :: resetEnemies es ss world config

/-- `Game::reset_level` — restore collectibles from spawn templates and
reinitialise the player and enemies. -/
def Game.reset_level (g : Game) : Game :=
  let player := g.player.reset g.world.player_spawn g.config
  let world := { g.world with coins := g.coin_spawns, mushrooms := g.mushroom_spawns }
  let enemies := resetEnemies g.enemies world.enemy_spawns world g.config
  { g with player := player, world := world, enemies := enemies }

/-- `Game::restart_run`. -/
def Game.restart_run (g : Game) : Game :=
  Game.reset_level { g with score := 0 }

/-- `Game::player_died` — zero the score and reset the level in place. -/
def Game.player_died (g : Game) : Game :=
  Game.reset_level { g with score := 0 }

/-- `Game::collect_coins` — remove overlapped coins, award 200 each. -/
def Game.collect_coins (g : Game) : Game :=
  let player_rect := g.player.rect
  let radius := g.config.tile_size * (1 / 5)
  let size := radius * 2
  let hit := fun (coin : Vec2) =>
    rects_intersect player_rect ⟨coin.x - radius, coin.y - radius, size, size⟩
  let collected := (g.world.coins.filter (fun c => decide (hit c))).length
  let g := { g with world :=
    { g.world with coins := g.world.coins.filter (fun c => decide (¬hit c)) } }
  if collected > 0 then g.add_score (collected * 200) else g

/-- `Game::collect_mushrooms` — remove overlapped mushrooms, power the
player, award 1000 each. -/
def Game.collect_mushrooms (g : Game) : Game :=
  let player_rect := g.player.rect
  let size := g.config.mushroom_size
  let hit := fun (pos : Vec2) =>
    rects_intersect player_rect ⟨pos.x, pos.y, size.x, size.y⟩
  let collected := (g.world.mushrooms.filter (fun m => decide (hit m))).length
  let g := { g with world :=
    { g.world with mushrooms := g.world.mushrooms.filter (fun m => decide (¬hit m)) } }
  if collected > 0 then
    ({ g with player := { g.player with powered := true } }).add_score
      (collected * 1000)
  else g

/-- Outcome chosen by the enemy-collision loop of
`Game::handle_player_enemy_collisions`. -/
inductive HitOutcome where
  | nothing
  | stomp (idx : ℕ)
  | powerDown (dir : ℚ)
  | die
deriving DecidableEq, Repr

/-- The `for (idx, enemy)`-with-`break` loop of
`Game::handle_player_enemy_collisions`: classify against the first live
overlapping enemy, skipping dead and non-overlapping ones. -/
def classifyHit (player_rect : Rect) (player_bottom vel_y : ℚ)
    (invuln powered : Bool) : List (ℕ × Enemy) → HitOutcome
  | [] => .nothing
  | (idx, enemy) :: rest =>
    if enemy.alive = false then
      classifyHit player_rect player_bottom vel_y invuln powered rest
    else if ¬rects_intersect player_rect enemy.rect then
      classifyHit player_rect player_bottom vel_y invuln powered rest
    else
      let enemy_rect := enemy.rect
      let stomp_threshold := enemy_rect.y + 6
      if vel_y > 0 ∧ player_bottom ≤ stomp_threshold then .stomp idx
      else if invuln then .nothing
      else if powered then
        let player_center_x := player_rect.x + player_rect.w * (1 / 2)
        let enemy_center_x := enemy_rect.x + enemy_rect.w * (1 / 2)
        .powerDown (if enemy_center_x < player_center_x then 1 else -1)
      else .die

/-- `Player::start_invulnerability`. -/
def Player.start_invulnerability (p : Player) (duration : ℚ) : Player :=
  { p with invuln_timer := rmax duration 0 }

/-- `Game::handle_player_enemy_collisions`. -/
def Game.handle_player_enemy_collisions (g : Game) : Game :=
  let player_rect := g.player.rect
  let player_bottom := player_rect.y + player_rect.h
  let outcome := classifyHit player_rect player_bottom g.player.vel.y
    (decide g.player.is_invulnerable) g.player.powered g.enemies.enum
  match outcome with
  | .nothing => g
  | .stomp idx =>
    let enemies :=
      match g.enemies.get? idx with
      | some enemy => g.enemies.set idx { enemy with alive := false }
      | none => g.enemies
    let player := { g.player with vel := ⟨g.player.vel.x, -g.config.stomp_bounce⟩ }
    let g := { g with enemies := enemies, player := player }
    g.add_score 100
  | .powerDown dir =>
    let p := (g.player.start_invulnerability g.config.hurt_invuln_time)
    let p := { p with
      powered := false
      vel := ⟨dir * g.config.hurt_knockback_x, -g.config.hurt_knockback_y⟩
      pos := ⟨p.pos.x + dir * 4, p.pos.y⟩
      on_ground := false }
    { g with player := p }
  | .die => g.player_died

/-- `Game::check_goal` — award 500 and complete the level on goal overlap. -/
def Game.check_goal (g : Game) : Game :=
  if rects_intersect g.player.rect (g.world.goal_trigger_rect g.config) then
    { g.add_score 500 with state := .LevelComplete }
  else g

/-- `Game::check_fall_off` — death below the world plus 200 pixels. -/
def Game.check_fall_off (g : Game) : Game :=
  let fall_limit := (g.world.height : ℚ) * g.config.tile_size + 200
  if g.player.pos.y > fall_limit then g.player_died else g

/-- `Game::fixed_update` — one fixed simulation step. -/
def Game.fixed_update (g : Game) (input : InputState) : Game :=
  match g.state with
  | .Title =>
    if input.start_pressed then ({ g with state := .Playing }).restart_run
    else g
  | .Playing =>
    if input.quit_pressed then { g with state := .Title }
    else if input.restart_pressed then g.restart_run
    else
      let pu := g.player.update input g.world g.config g.config.fixed_dt
      let g := { g with player := pu.1 }
      let g := { g with
        enemies := g.enemies.map
          (fun e => Enemy.update e g.world g.config g.config.fixed_dt) }
      ((((g.collect_coins).collect_mushrooms).handle_player_enemy_collisions).check_goal).check_fall_off
  | .LevelComplete =>
    if input.quit_pressed then { g with state := .Title }
    else if input.restart_pressed then ({ g with state := .Playing }).restart_run
    else g

/-- `Game::capture_input` — `move_x` is overwritten each frame, button
edges are OR-latched. -/
def Game.captureInput (g : Game) (captured : InputState) : Game :=
  { g with input :=
    { move_x := captured.move_x
      jump_pressed := g.input.jump_pressed || captured.jump_pressed
      jump_released := g.input.jump_released || captured.jump_released
      start_pressed := g.input.start_pressed || captured.start_pressed
      restart_pressed := g.input.restart_pressed || captured.restart_pressed
      quit_pressed := g.input.quit_pressed || captured.quit_pressed } }

/-- `Game::consume_fixed_input` — snapshot the latched input and clear
the edge flags. -/
def Game.consumeFixedInput (g : Game) : InputState × Game :=
  (g.input,
    { g with input := { g.input with
        jump_pressed := false
        jump_released := false
        start_pressed := false
        restart_pressed := false
        quit_pressed := false } })

/-- The body of the `while accumulator >= fixed_dt` loop in
`Game::update`: consume the latched input and run one fixed step. -/
def Game.doFixedStep (g : Game) : Game :=
  let ci := g.consumeFixedInput
  ci.2.fixed_update ci.1

/-- The `while accumulator >= fixed_dt` drain loop of `Game::update`.
`fixed_update` never touches the accumulator or the config, so the
accumulator is threaded explicitly beside the game state. -/
def simLoop (fixed_dt : ℚ) (step : Game → Game) (acc : ℚ) (g : Game) :
    ℚ × Game :=
  if h : 0 < fixed_dt ∧ fixed_dt ≤ acc then
    simLoop fixed_dt step (acc - fixed_dt) (step g)
  else (acc, g)
termination_by (⌊acc / fixed_dt⌋).toNat
decreasing_by
  have hd : 0 < fixed_dt := h.1
  have hle : fixed_dt ≤ acc := h.2
  have h1 : (1 : ℚ) ≤ acc / fixed_dt := (le_div_iff₀ hd).mpr (by linarith)
  have hfl : 1 ≤ ⌊acc / fixed_dt⌋ := by exact_mod_cast Int.le_floor.mpr h1
  have heq : ⌊(acc - fixed_dt) / fixed_dt⌋ = ⌊acc / fixed_dt⌋ - 1 := by
    rw [sub_div, div_self hd.ne']
    exact_mod_cast Int.floor_sub_int (acc / fixed_dt) 1
  rw [heq]
  omega

/-- `Game::update` — per-frame entry point: capture input, clamp and
accumulate the frame time, and drain fixed steps. -/
def Game.update (g : Game) (captured : InputState) (frame_dt : ℚ) : Game :=
  let g1 := g.captureInput captured
  let acc0 := g1.accumulator + rmin frame_dt g1.config.max_frame_time
  let r := simLoop g1.config.fixed_dt Game.doFixedStep acc0
    { g1 with accumulator := acc0 }
  { r.2 with accumulator := r.1 }

/-! ## Concrete fixtures for witnesses -/

/-- A one-column world: air above one solid floor tile. -/
def wTest : World :=
  ⟨[⟨0, 32, 32, 32⟩], [false, true], [], [], [], ⟨0, 0⟩, ⟨0, 0⟩, 1, 2⟩

/-- A dead enemy placed in `wTest`. -/
def eDeadTest : Enemy :=
  ⟨⟨4, 12⟩, ⟨3, 7⟩, -1, false, ⟨24, 20⟩, true⟩

/-- Neutral input: no intent, no edges. -/
def inputIdle : InputState := ⟨0, false, false, false, false, false⟩

/-! ## Generic fold helpers -/

theorem foldl_fixed {α β : Type} {f : α → β → α} {s : α}
    (h : ∀ b, f s b = s) : ∀ l : List β, l.foldl f s = s := by
  intro l
  induction l with
  | nil => rfl
  | cons b l ih => simpa [List.foldl, h b] using ih

/-! ## C9 — `approach` -/

/-- C9: `approach v target 0 = v`; for `0 ≤ delta` the result stays
between `v` and `target` inclusive; and once `delta ≥ |target − v|` the
result is exactly `target`. -/
theorem approach_spec (v t d : ℚ) (hd : 0 ≤ d) :
    approach v t 0 = v ∧
    min v t ≤ approach v t d ∧ approach v t d ≤ max v t ∧
    (|t - v| ≤ d → approach v t d = t) := by
  refine ⟨?_, ?_, ?_, fun habs => ?_⟩
  · simp only [approach, rmin, rmax]
    split_ifs <;> linarith
  · simp only [approach, rmin, rmax, min_def]
    split_ifs <;> linarith
  · simp only [approach, rmin, rmax, max_def]
    split_ifs <;> linarith
  · rw [abs_sub_le_iff] at habs
    simp only [approach, rmin, rmax]
    split_ifs <;> linarith [habs.1, habs.2]

/-- C9 witness: concrete instance with `delta` past the gap. -/
theorem approach_spec_witness : approach 0 5 7 = 5 :=
  (approach_spec 0 5 7 (by norm_num)).2.2.2 (by norm_num)

/-! ## C2 — kernel with zero velocity -/

/-- C2 (amended): with zero velocity the kernel returns the position and
velocity unchanged, and `on_ground` is always `false` — grounding is only
reported on downward motion, never from static overlap. -/
theorem xfold_zero (size : Vec2) (x y : ℚ) (solids : List Rect) :
    solids.foldl (xCollide size) ⟨x, 0, ⟨x, y, size.x, size.y⟩⟩ =
      ⟨x, 0, ⟨x, y, size.x, size.y⟩⟩ := by
  refine foldl_fixed (fun solid => ?_) solids
  unfold xCollide
  split
  · simp
  · rfl

theorem yfold_zero (size : Vec2) (x y : ℚ) (og : Bool) (solids : List Rect) :
    solids.foldl (yCollide size) ⟨y, 0, og, ⟨x, y, size.x, size.y⟩⟩ =
      ⟨y, 0, og, ⟨x, y, size.x, size.y⟩⟩ := by
  refine foldl_fixed (fun solid => ?_) solids
  unfold yCollide
  split
  · simp
  · rfl

theorem move_zero_velocity (pos size : Vec2) (solids : List Rect) (dt : ℚ) :
    move_with_collisions pos size ⟨0, 0⟩ solids dt = (pos, ⟨0, 0⟩, false) := by
  obtain ⟨px, py⟩ := pos
  simp [move_with_collisions, rect_at, xfold_zero, yfold_zero]

/-- C2 counterexample: an actor statically embedded in a solid, zero
velocity — the rectangles overlap, yet the kernel reports
`on_ground = false`, so `on_ground` does not reflect static overlap. -/
theorem move_zero_velocity_overlap_cex :
    rects_intersect (rect_at ⟨0, 0⟩ ⟨1, 1⟩) ⟨0, 0, 2, 2⟩ ∧
    (move_with_collisions ⟨0, 0⟩ ⟨1, 1⟩ ⟨0, 0⟩ [⟨0, 0, 2, 2⟩] 1).2.2 = false := by
  constructor
  · norm_num [rects_intersect, rect_at]
  · norm_num [move_with_collisions, xCollide, yCollide, rect_at, rects_intersect]

/-! ## C10 — dead enemies are frozen -/

/-- C10: updating a dead enemy is a no-op — position, velocity, patrol
direction and on-ground flag are all left unchanged. -/
theorem enemy_dead_update_noop (e : Enemy) (w : World) (cfg : Config)
    (dt : ℚ) (h : e.alive = false) : Enemy.update e w cfg dt = e := by
  simp [Enemy.update, h]

/-- C10 witness: a concrete dead enemy in the test world. -/
theorem enemy_dead_update_noop_witness :
    Enemy.update eDeadTest wTest cfgDefault (1 / 60) = eDeadTest :=
  enemy_dead_update_noop eDeadTest wTest cfgDefault (1 / 60) rfl

/-! ## C8 — ground query and solid-tile lookup -/

theorem groundScan_some_iff (w : World) (tile : ℚ) (col : ℤ) :
    ∀ fuel row y, groundScan w tile col fuel row = some y ↔
      ∃ k, k < fuel ∧ w.is_solid_tile col (row + k : ℕ) = true ∧
        (∀ j, j < k → w.is_solid_tile col (row + j : ℕ) = false) ∧
        y = ((row + k : ℕ) : ℚ) * tile := by
  intro fuel
  induction fuel with
  | zero => simp [groundScan]
  | succ n ih =>
    intro row y
    unfold groundScan
    by_cases hs : w.is_solid_tile col (row : ℤ) = true
    · simp only [hs, if_true, Option.some.injEq]
      constructor
      · intro hy
        exact ⟨0, Nat.succ_pos n, by simpa using hs, by omega, by simpa using hy.symm⟩
      · rintro ⟨k, _, hsolid, hprev, hy⟩
        rcases Nat.eq_zero_or_pos k with hk0 | hkpos
        · subst hk0; simpa using hy.symm
        · have := hprev 0 hkpos
          simp only [Nat.add_zero] at this
          rw [this] at hs
          exact absurd hs (by simp)
    · have hs' : w.is_solid_tile col (row : ℤ) = false := by
        revert hs; cases w.is_solid_tile col (row : ℤ) <;> simp
      simp only [hs', if_false, Bool.false_eq_true]
      rw [ih (row + 1) y]
      constructor
      · rintro ⟨k, hk, hsolid, hprev, hy⟩
        refine ⟨k + 1, by omega, by rw [show row + (k + 1) = row + 1 + k by omega]; exact hsolid,
          ?_, by rw [show row + (k + 1) = row + 1 + k by omega]; exact hy⟩
        intro j hj
        rcases Nat.eq_zero_or_pos j with hj0 | hjpos
        · subst hj0; simpa using hs'
        · have := hprev (j - 1) (by omega)
          rw [show row + 1 + (j - 1) = row + j by omega] at this
          exact this
      · rintro ⟨k, hk, hsolid, hprev, hy⟩
        rcases Nat.eq_zero_or_pos k with hk0 | hkpos
        · subst hk0
          simp only [Nat.add_zero] at hsolid
          rw [hsolid] at hs'
          exact absurd hs' (by simp)
        · refine ⟨k - 1, by omega, by rw [show row + 1 + (k - 1) = row + k by omega]; exact hsolid,
            ?_, by rw [show row + 1 + (k - 1) = row + k by omega]; exact hy⟩
          intro j hj
          have := hprev (j + 1) (by omega)
          rw [show row + (j + 1) = row + 1 + j by omega] at this
          exact this

theorem groundScan_none_iff (w : World) (tile : ℚ) (col : ℤ) :
    ∀ fuel row, groundScan w tile col fuel row = none ↔
      ∀ k, k < fuel → w.is_solid_tile col (row + k : ℕ) = false := by
  intro fuel
  induction fuel with
  | zero => simp [groundScan]
  | succ n ih =>
    intro row
    unfold groundScan
    by_cases hs : w.is_solid_tile col (row : ℤ) = true
    · simp only [hs, if_true]
      constructor
      · intro h; exact absurd h (by simp)
      · intro h
        have := h 0 (Nat.succ_pos n)
        simp only [Nat.add_zero] at this
        rw [this] at hs
        exact absurd hs (by simp)
    · have hs' : w.is_solid_tile col (row : ℤ) = false := by
        revert hs; cases w.is_solid_tile col (row : ℤ) <;> simp
      simp only [hs', if_false, Bool.false_eq_true]
      rw [ih (row + 1)]
      constructor
      · intro h j hj
        rcases Nat.eq_zero_or_pos j with hj0 | hjpos
        · subst hj0; simpa using hs'
        · have := h (j - 1) (by omega)
          rw [show row + 1 + (j - 1) = row + j by omega] at this
          exact this
      · intro h j hj
        have := h (j + 1) (by omega)
        rw [show row + (j + 1) = row + 1 + j by omega] at this
        exact this

/-- C8: `ground_y_for_x` scans the column `⌊x / tile_size⌋` downward from
row `max ⌊start_y / tile_size⌋ 0` and returns the top edge
`row * tile_size` of the first solid tile, `none` when no row at/below the
start row inside the grid is solid; `is_solid_tile` is `false` for every
out-of-range coordinate. -/
theorem ground_y_for_x_spec (w : World) (x sy : ℚ) (cfg : Config) :
    (∀ y, w.ground_y_for_x x sy cfg = some y ↔
      ∃ row : ℕ, (max ⌊sy / cfg.tile_size⌋ 0).toNat ≤ row ∧ row < w.height ∧
        w.is_solid_tile ⌊x / cfg.tile_size⌋ row = true ∧
        (∀ r : ℕ, (max ⌊sy / cfg.tile_size⌋ 0).toNat ≤ r → r < row →
          w.is_solid_tile ⌊x / cfg.tile_size⌋ r = false) ∧
        y = (row : ℚ) * cfg.tile_size) ∧
    (w.ground_y_for_x x sy cfg = none ↔
      ∀ row : ℕ, (max ⌊sy / cfg.tile_size⌋ 0).toNat ≤ row → row < w.height →
        w.is_solid_tile ⌊x / cfg.tile_size⌋ row = false) ∧
    (∀ c r : ℤ, c < 0 ∨ r < 0 ∨ (w.width : ℤ) ≤ c ∨ (w.height : ℤ) ≤ r →
      w.is_solid_tile c r = false) := by
  set sr : ℕ := (max ⌊sy / cfg.tile_size⌋ 0).toNat with hsr
  refine ⟨fun y => ?_, ?_, fun c r hcr => ?_⟩
  · unfold World.ground_y_for_x
    rw [groundScan_some_iff]
    constructor
    · rintro ⟨k, hk, hsolid, hprev, hy⟩
      refine ⟨sr + k, by omega, by omega, hsolid, fun r h1 h2 => ?_, hy⟩
      have := hprev (r - sr) (by omega)
      rw [show sr + (r - sr) = r by omega] at this
      exact this
    · rintro ⟨row, h1, h2, hsolid, hprev, hy⟩
      refine ⟨row - sr, by omega, ?_, fun j hj => ?_, ?_⟩
      · rw [show sr + (row - sr) = row by omega]; exact hsolid
      · exact hprev (sr + j) (by omega) (by omega)
      · rw [show sr + (row - sr) = row by omega]; exact hy
  · unfold World.ground_y_for_x
    rw [groundScan_none_iff]
    constructor
    · intro h row h1 h2
      have := h (row - sr) (by omega)
      rw [show sr + (row - sr) = row by omega] at this
      exact this
    · intro h k hk
      exact h (sr + k) (by omega) (by omega)
  · unfold World.is_solid_tile
    rcases hcr with hc | hr | hc | hr
    · simp [hc]
    · simp [hr]
    · by_cases hneg : c < 0 ∨ r < 0
      · simp [hneg]
      · push_neg at hneg
        have : c.toNat ≥ w.width := by omega
        simp only [if_neg (show ¬(c < 0 ∨ r < 0) by omega)]
        simp [this]
    · by_cases hneg : c < 0 ∨ r < 0
      · simp [hneg]
      · push_neg at hneg
        have : r.toNat ≥ w.height := by omega
        simp only [if_neg (show ¬(c < 0 ∨ r < 0) by omega)]
        simp [this]

/-- C8 witness: in the test world the column at `x = 0` starting from
`y = 0` has its first solid tile at row 1, top edge 32; and a negative
column is never solid. -/
theorem ground_y_for_x_spec_witness :
    wTest.ground_y_for_x 0 0 cfgDefault = some 32 ∧
    wTest.is_solid_tile (-1) 0 = false := by
  constructor
  · refine ((ground_y_for_x_spec wTest 0 0 cfgDefault).1 32).mpr ⟨1, ?_, ?_, ?_, ?_, ?_⟩
    · norm_num [cfgDefault]
    · norm_num [wTest]
    · norm_num [cfgDefault, wTest, World.is_solid_tile]
    · intro r h1 h2
      have : r = 0 := by
        norm_num [cfgDefault] at h1 h2
        omega
      subst this
      norm_num [cfgDefault, wTest, World.is_solid_tile]
    · norm_num [cfgDefault]
  · exact (ground_y_for_x_spec wTest 0 0 cfgDefault).2.2 (-1) 0 (by norm_num)

/-! ## C1 — the two jump-trigger points of `Player::update` -/

/-- C1: writing `a` for the player state after the timer/velocity updates,
`b` for the state after the pre-move trigger point and `c` for the state
after gravity and the collision kernel: the pre-move trigger fires exactly
when `a`'s jump-buffer and coyote timers are both positive, performing the
jump assignments (`vel.y = -jump_speed`, both timers zeroed, not
grounded); the post-move trigger fires exactly when `c`'s jump-buffer
timer is still positive and the kernel reported grounded, performing the
identical assignments; the step reports a jump exactly when either fired,
and when neither condition holds nothing is triggered (the result is the
kernel output `c` unchanged). -/
theorem player_update_jump_triggers (p : Player) (input : InputState)
    (w : World) (cfg : Config) (dt : ℚ)
    (a : Player) (ha : a = p.preMovePhase input cfg dt)
    (b : Player)
    (hb : b = if a.jump_buffer_timer > 0 ∧ a.coyote_timer > 0 then a.doJump cfg else a)
    (c : Player) (hc : c = b.gravityMove w cfg dt) :
    ((p.update input w cfg dt).2 = true ↔
      ((a.jump_buffer_timer > 0 ∧ a.coyote_timer > 0) ∨
        (c.jump_buffer_timer > 0 ∧ c.on_ground = true))) ∧
    (a.jump_buffer_timer > 0 ∧ a.coyote_timer > 0 →
      b.vel.y = -cfg.jump_speed ∧ b.jump_buffer_timer = 0 ∧
      b.coyote_timer = 0 ∧ b.on_ground = false ∧
      b.pos = a.pos ∧ b.vel.x = a.vel.x) ∧
    (¬(a.jump_buffer_timer > 0 ∧ a.coyote_timer > 0) → b = a) ∧
    (c.jump_buffer_timer > 0 ∧ c.on_ground = true →
      (p.update input w cfg dt).1.vel.y = -cfg.jump_speed ∧
      (p.update input w cfg dt).1.jump_buffer_timer = 0 ∧
      (p.update input w cfg dt).1.coyote_timer = 0 ∧
      (p.update input w cfg dt).1.on_ground = false ∧
      (p.update input w cfg dt).1.pos = c.pos ∧
      (p.update input w cfg dt).1.vel.x = c.vel.x) ∧
    (¬(c.jump_buffer_timer > 0 ∧ c.on_ground = true) →
      (p.update input w cfg dt).1 = c) := by
  subst ha
  subst hb
  subst hc
  unfold Player.update
  dsimp only
  by_cases hpre :
      (p.preMovePhase input cfg dt).jump_buffer_timer > 0 ∧
        (p.preMovePhase input cfg dt).coyote_timer > 0
  · rw [if_pos hpre]
    by_cases hpost :
        (((p.preMovePhase input cfg dt).doJump cfg).gravityMove w cfg dt).jump_buffer_timer > 0 ∧
          (((p.preMovePhase input cfg dt).doJump cfg).gravityMove w cfg dt).on_ground = true
    · rw [if_pos hpost]
      refine ⟨by simp [hpre], fun _ => ⟨rfl, rfl, rfl, rfl, rfl, rfl⟩,
        fun hn => absurd hpre hn, fun _ => ⟨rfl, rfl, rfl, rfl, rfl, rfl⟩,
        fun hn => absurd hpost hn⟩
    · rw [if_neg hpost]
      refine ⟨by simp [hpre, hpost], fun _ => ⟨rfl, rfl, rfl, rfl, rfl, rfl⟩,
        fun hn => absurd hpre hn, fun hp => absurd hp hpost, fun _ => rfl⟩
  · rw [if_neg hpre]
    by_cases hpost :
        ((p.preMovePhase input cfg dt).gravityMove w cfg dt).jump_buffer_timer > 0 ∧
          ((p.preMovePhase input cfg dt).gravityMove w cfg dt).on_ground = true
    · rw [if_pos hpost]
      refine ⟨by simp [hpost], fun hp => absurd hp hpre, fun _ => rfl,
        fun _ => ⟨rfl, rfl, rfl, rfl, rfl, rfl⟩, fun hn => absurd hpost hn⟩
    · rw [if_neg hpost]
      refine ⟨by simp [hpre, hpost], fun hp => absurd hp hpre, fun _ => rfl,
        fun hp => absurd hp hpost, fun _ => rfl⟩

/-- A grounded player with neutral velocity, used for jump witnesses. -/
def pGroundTest : Player := ⟨⟨5, 4⟩, ⟨0, 0⟩, true, ⟨22, 28⟩, 1, 0, 0, false, 0⟩

/-- Input with the jump edge pressed. -/
def inputJump : InputState := ⟨0, true, false, false, false, false⟩

/-- C1 witness: a grounded player pressing jump reports a jump. -/
theorem player_update_jump_triggers_witness :
    (pGroundTest.update inputJump wTest cfgDefault (1 / 60)).2 = true := by
  have h := player_update_jump_triggers pGroundTest inputJump wTest cfgDefault
    (1 / 60) _ rfl _ rfl _ rfl
  refine h.1.mpr (Or.inl ⟨?_, ?_⟩)
  · norm_num [Player.preMovePhase, pGroundTest, inputJump, cfgDefault, rmax]
  · norm_num [Player.preMovePhase, pGroundTest, inputJump, cfgDefault, rmax]

/-! ## C4 — enemy wall/ledge turning and world-bounds clamp -/

/-- An alive enemy resting on the floor of `wTest`. -/
def eAliveTest : Enemy := ⟨⟨4, 12⟩, ⟨0, 0⟩, -1, true, ⟨24, 20⟩, false⟩

/-- C4: writing `m` for the kernel-move result (with its `hit_wall`
observation) and `t` for the state after the turn logic: `hit_wall` holds
exactly when the desired horizontal velocity was essentially nonzero but
the kernel returned essentially zero; the patrol direction after the turn
logic is flipped exactly when `hit_wall` holds or the enemy is grounded
with the ledge probe (one pixel beyond the leading foot, via
`ground_y_for_x`) unsupported; and the final bounds clamp forces
`dir = 1` with `pos.x = 0` at the left bound and `dir = -1` with a
clamped position at the right bound, independent of the turn logic. -/
theorem enemy_update_turns (e : Enemy) (w : World) (cfg : Config) (dt : ℚ)
    (halive : e.alive = true)
    (m : Enemy × Bool) (hm : m = e.moveStep w cfg dt)
    (t : Enemy) (ht : t = m.1.turnStep m.2 w cfg) :
    (m.2 = true ↔
      (|cfg.enemy_speed * e.dir| > f32_eps ∧
        |(move_with_collisions e.pos e.size
            ⟨cfg.enemy_speed * e.dir,
              rmin (e.vel.y + cfg.gravity * dt) cfg.terminal_velocity⟩
            w.solids dt).2.1.x| ≤ f32_eps)) ∧
    m.1.dir = e.dir ∧
    (t.dir =
      if m.2 = true ∨ (m.1.on_ground = true ∧ ¬m.1.ledgeSupported w cfg)
      then -e.dir else e.dir) ∧
    t.pos = m.1.pos ∧
    Enemy.update e w cfg dt = t.boundsStep w cfg ∧
    ((t.boundsStep w cfg).pos.x =
      if t.pos.x ≤ 0 then 0
      else if t.pos.x + t.size.x ≥ (w.width : ℚ) * cfg.tile_size
      then rmax ((w.width : ℚ) * cfg.tile_size - t.size.x) 0
      else t.pos.x) ∧
    ((t.boundsStep w cfg).dir =
      if t.pos.x ≤ 0 then 1
      else if t.pos.x + t.size.x ≥ (w.width : ℚ) * cfg.tile_size
      then -1 else t.dir) := by
  subst hm
  subst ht
  refine ⟨by simp [Enemy.moveStep], rfl, ?_, ?_, ?_, ?_, ?_⟩
  · unfold Enemy.turnStep
    by_cases hw : (e.moveStep w cfg dt).2 = true
    · rw [if_pos hw, if_pos (Or.inl hw)]
      rfl
    · rw [if_neg hw]
      by_cases hl : (e.moveStep w cfg dt).1.on_ground = true ∧
          ¬(e.moveStep w cfg dt).1.ledgeSupported w cfg
      · rw [if_pos hl, if_pos (Or.inr hl)]
        rfl
      · rw [if_neg hl, if_neg (fun hor => hor.elim hw hl)]
        rfl
  · unfold Enemy.turnStep
    split_ifs <;> rfl
  · unfold Enemy.update
    rw [if_neg (by simp [halive])]
  · unfold Enemy.boundsStep
    dsimp only
    split_ifs <;> rfl
  · unfold Enemy.boundsStep
    dsimp only
    split_ifs <;> rfl

/-- C4 witness: the update of a concrete live enemy is the composition
of move, turn and bounds clamp. -/
theorem enemy_update_turns_witness :
    Enemy.update eAliveTest wTest cfgDefault (1 / 60) =
      ((eAliveTest.moveStep wTest cfgDefault (1 / 60)).1.turnStep
        (eAliveTest.moveStep wTest cfgDefault (1 / 60)).2 wTest
        cfgDefault).boundsStep wTest cfgDefault :=
  (enemy_update_turns eAliveTest wTest cfgDefault (1 / 60) rfl _ rfl _
    rfl).2.2.2.2.1

/-! ## C7 — level-parse error characterization -/

/-- The characters of a cell stream. -/
def cellChars (cells : List (ℕ × ℕ × Char)) : List Char :=
  cells.map (fun c => c.2.2)

/-- 1 if the parse state already holds a player spawn. -/
def pcount (acc : ParseAcc) : ℕ := if acc.player_spawn.isSome then 1 else 0

/-- 1 if the parse state already holds a goal tile. -/
def gcount (acc : ParseAcc) : ℕ := if acc.goal_tile.isSome then 1 else 0

theorem parseCell_invalid (ts : ℚ) (width : ℕ) (acc : ParseAcc)
    (row col : ℕ) (ch : Char) (hv : validChar ch = false) :
    parseCell ts width acc (row, col, ch) = .error "Unexpected tile" := by
  simp only [validChar, Bool.or_eq_false_iff, decide_eq_false_iff_not] at hv
  obtain ⟨⟨⟨⟨⟨⟨h1, h2⟩, h3⟩, h4⟩, h5⟩, h6⟩, h7⟩ := hv
  simp [parseCell, h1, h2, h3, h4, h5, h6, h7]

theorem parseCell_plain (ts : ℚ) (width : ℕ) (acc : ParseAcc)
    (row col : ℕ) (ch : Char) (hv : validChar ch = true)
    (hp : ch ≠ 'P') (hg : ch ≠ 'G') :
    ∃ acc2, parseCell ts width acc (row, col, ch) = .ok acc2 ∧
      acc2.player_spawn = acc.player_spawn ∧ acc2.goal_tile = acc.goal_tile := by
  simp only [validChar, Bool.or_eq_true, decide_eq_true_eq] at hv
  rcases hv with ((((((h | h) | h) | h) | h) | h) | h) <;> subst h <;>
    first
      | exact absurd rfl hp
      | exact absurd rfl hg
      | exact ⟨_, rfl, rfl, rfl⟩

theorem parseCell_P_none (ts : ℚ) (width : ℕ) (acc : ParseAcc)
    (row col : ℕ) (hnone : acc.player_spawn = none) :
    parseCell ts width acc (row, col, 'P') =
      .ok { acc with player_spawn := some ⟨(col : ℚ) * ts, (row : ℚ) * ts⟩ } := by
  simp [parseCell, hnone]

theorem parseCell_P_some (ts : ℚ) (width : ℕ) (acc : ParseAcc)
    (row col : ℕ) (v : Vec2) (hsome : acc.player_spawn = some v) :
    parseCell ts width acc (row, col, 'P') =
      .error "Multiple player spawns found" := by
  simp [parseCell, hsome]

theorem parseCell_G_none (ts : ℚ) (width : ℕ) (acc : ParseAcc)
    (row col : ℕ) (hnone : acc.goal_tile = none) :
    parseCell ts width acc (row, col, 'G') =
      .ok { acc with goal_tile := some ⟨(col : ℚ) * ts, (row : ℚ) * ts⟩ } := by
  simp [parseCell, hnone]

theorem parseCell_G_some (ts : ℚ) (width : ℕ) (acc : ParseAcc)
    (row col : ℕ) (v : Vec2) (hsome : acc.goal_tile = some v) :
    parseCell ts width acc (row, col, 'G') =
      .error "Multiple goal tiles found" := by
  simp [parseCell, hsome]

theorem parseFold_spec (ts : ℚ) (width : ℕ) :
    ∀ (cells : List (ℕ × ℕ × Char)) (acc : ParseAcc),
      ((∃ acc2, parseFold ts width acc cells = .ok acc2) ↔
        ((∀ ch ∈ cellChars cells, validChar ch = true) ∧
         (cellChars cells).count 'P' + pcount acc ≤ 1 ∧
         (cellChars cells).count 'G' + gcount acc ≤ 1)) ∧
      (∀ acc2, parseFold ts width acc cells = .ok acc2 →
        ((acc2.player_spawn.isSome = true) ↔
          (acc.player_spawn.isSome = true ∨ 0 < (cellChars cells).count 'P')) ∧
        ((acc2.goal_tile.isSome = true) ↔
          (acc.goal_tile.isSome = true ∨ 0 < (cellChars cells).count 'G'))) := by
  intro cells
  induction cells with
  | nil =>
    intro acc
    refine ⟨⟨fun _ => ⟨by simp [cellChars], ?_, ?_⟩, fun _ => ⟨acc, rfl⟩⟩, ?_⟩
    · simp only [cellChars, List.map_nil, List.count_nil, Nat.zero_add, pcount]
      split <;> omega
    · simp only [cellChars, List.map_nil, List.count_nil, Nat.zero_add, gcount]
      split <;> omega
    · intro acc2 h
      simp only [parseFold, Except.ok.injEq] at h
      subst h
      simp [cellChars]
  | cons cell cells ih =>
    intro acc
    obtain ⟨row, col, ch⟩ := cell
    by_cases hv : validChar ch = true
    · by_cases hp : ch = 'P'
      · subst hp
        cases hps : acc.player_spawn with
        | none =>
          have hstep := parseCell_P_none ts width acc row col hps
          set accP : ParseAcc := { acc with player_spawn := some ⟨(col : ℚ) * ts, (row : ℚ) * ts⟩ } with haccP
          have hpc : pcount accP = 1 := by simp [pcount, haccP]
          have hgc : gcount accP = gcount acc := by simp [gcount, haccP]
          have hpc0 : pcount acc = 0 := by simp [pcount, hps]
          have hrw : parseFold ts width acc ((row, col, 'P') :: cells) =
              parseFold ts width accP cells := by
            simp [parseFold, hstep]
          constructor
          · rw [hrw, (ih _).1, hpc, hgc]
            simp only [cellChars, List.map_cons, List.forall_mem_cons,
              List.count_cons, hv, true_and]
            constructor
            · rintro ⟨h1, h2, h3⟩
              refine ⟨h1, by simp; omega, by simp; omega⟩
            · rintro ⟨h1, h2, h3⟩
              refine ⟨h1, by simp at h2; omega, by simp at h3; omega⟩
          · intro acc2 h
            rw [hrw] at h
            have h2 := (ih _).2 acc2 h
            simp only [cellChars, List.map_cons, List.count_cons] at h2 ⊢
            constructor
            · rw [h2.1]
              simp [haccP]
            · rw [h2.2]
              simp [haccP, hps]
        | some v =>
          have hstep := parseCell_P_some ts width acc row col v hps
          have hrw : parseFold ts width acc ((row, col, 'P') :: cells) =
              .error "Multiple player spawns found" := by
            simp [parseFold, hstep]
          constructor
          · rw [hrw]
            simp only [cellChars, List.map_cons, List.count_cons]
            constructor
            · rintro ⟨acc2, h⟩
              exact absurd h (by simp)
            · rintro ⟨h1, h2, h3⟩
              have : pcount acc = 1 := by simp [pcount, hps]
              simp at h2
              omega
          · intro acc2 h
            rw [hrw] at h
            exact absurd h (by simp)
      · by_cases hg : ch = 'G'
        · subst hg
          cases hgs : acc.goal_tile with
          | none =>
            have hstep := parseCell_G_none ts width acc row col hgs
            set accG : ParseAcc := { acc with goal_tile := some ⟨(col : ℚ) * ts, (row : ℚ) * ts⟩ } with haccG
            have hgc : gcount accG = 1 := by simp [gcount, haccG]
            have hpc : pcount accG = pcount acc := by simp [pcount, haccG]
            have hgc0 : gcount acc = 0 := by simp [gcount, hgs]
            have hrw : parseFold ts width acc ((row, col, 'G') :: cells) =
                parseFold ts width accG cells := by
              simp [parseFold, hstep]
            constructor
            · rw [hrw, (ih _).1, hpc, hgc]
              simp only [cellChars, List.map_cons, List.forall_mem_cons,
                List.count_cons, hv, true_and]
              constructor
              · rintro ⟨h1, h2, h3⟩
                refine ⟨h1, by simp; omega, by simp; omega⟩
              · rintro ⟨h1, h2, h3⟩
                refine ⟨h1, by simp at h2; omega, by simp at h3; omega⟩
            · intro acc2 h
              rw [hrw] at h
              have h2 := (ih _).2 acc2 h
              simp only [cellChars, List.map_cons, List.count_cons] at h2 ⊢
              constructor
              · rw [h2.1]
                simp [haccG, hgs]
              · rw [h2.2]
                simp [haccG]
          | some v =>
            have hstep := parseCell_G_some ts width acc row col v hgs
            have hrw : parseFold ts width acc ((row, col, 'G') :: cells) =
                .error "Multiple goal tiles found" := by
              simp [parseFold, hstep]
            constructor
            · rw [hrw]
              simp only [cellChars, List.map_cons, List.count_cons]
              constructor
              · rintro ⟨acc2, h⟩
                exact absurd h (by simp)
              · rintro ⟨h1, h2, h3⟩
                have : gcount acc = 1 := by simp [gcount, hgs]
                simp at h3
                omega
            · intro acc2 h
              rw [hrw] at h
              exact absurd h (by simp)
        · obtain ⟨acc2, hstep, hpse, hgse⟩ :=
            parseCell_plain ts width acc row col ch hv hp hg
          have hrw : parseFold ts width acc ((row, col, ch) :: cells) =
              parseFold ts width acc2 cells := by
            simp [parseFold, hstep]
          have hpc : pcount acc2 = pcount acc := by simp [pcount, hpse]
          have hgc : gcount acc2 = gcount acc := by simp [gcount, hgse]
          constructor
          · rw [hrw, (ih _).1, hpc, hgc]
            simp only [cellChars, List.map_cons, List.forall_mem_cons,
              List.count_cons, hv, true_and]
            constructor
            · rintro ⟨h1, h2, h3⟩
              refine ⟨h1, by simp [hp]; omega, by simp [hg]; omega⟩
            · rintro ⟨h1, h2, h3⟩
              refine ⟨h1, by simp [hp] at h2; omega, by simp [hg] at h3; omega⟩
          · intro accf h
            rw [hrw] at h
            have h2 := (ih _).2 accf h
            simp only [cellChars, List.map_cons, List.count_cons] at h2 ⊢
            constructor
            · rw [h2.1, hpse]
              simp [hp]
            · rw [h2.2, hgse]
              simp [hg]
    · have hv' : validChar ch = false := by
        revert hv; cases validChar ch <;> simp
      have hstep := parseCell_invalid ts width acc row col ch hv'
      have hrw : parseFold ts width acc ((row, col, ch) :: cells) =
          .error "Unexpected tile" := by
        simp [parseFold, hstep]
      constructor
      · rw [hrw]
        constructor
        · rintro ⟨acc2, h⟩
          exact absurd h (by simp)
        · rintro ⟨h1, h2, h3⟩
          have := h1 ch (by simp [cellChars])
          rw [this] at hv'
          exact absurd hv' (by simp)
      · intro acc2 h
        rw [hrw] at h
        exact absurd h (by simp)

theorem cellChars_cellsOfLines (lines : List (List Char)) :
    cellChars (cellsOfLines lines) = lines.flatten := by
  unfold cellChars cellsOfLines
  rw [List.map_flatten, List.map_map]
  conv_rhs => rw [← List.enum_map_snd lines]
  congr 1
  refine List.map_congr_left (fun rl _ => ?_)
  simp only [Function.comp, List.map_map]
  exact List.enum_map_snd rl.2

theorem levelLines_width_pos (contents : List Char)
    (h : levelLines contents ≠ []) :
    ((levelLines contents).map List.length).foldr max 0 ≠ 0 := by
  cases hll : levelLines contents with
  | nil => exact absurd hll h
  | cons l ls =>
    have hmem : l ∈ levelLines contents := by
      rw [hll]; exact List.mem_cons_self l ls
    have hemp : l.isEmpty = false := by
      have := List.of_mem_filter (p := fun (l : List Char) => !l.isEmpty) (by
        unfold levelLines at hmem
        exact hmem)
      simpa using this
    have hlen : 1 ≤ l.length := by
      cases l with
      | nil => simp at hemp
      | cons c cs => simp
    simp only [List.map_cons, List.foldr_cons]
    omega

/-- C7: level parsing succeeds iff the level has at least one non-empty
row, every character is one of the seven recognised tile characters, and
there is exactly one `P` and exactly one `G`; equivalently, it errors iff
one of those conditions fails, and every successfully constructed world
came from a grid with exactly one player spawn and one goal. -/
theorem from_ascii_ok_iff (contents : List Char) (cfg : Config) :
    (∃ w, World.from_ascii contents cfg = .ok w) ↔
      (levelLines contents ≠ [] ∧
       (∀ ch ∈ (levelLines contents).flatten, validChar ch = true) ∧
       (levelLines contents).flatten.count 'P' = 1 ∧
       (levelLines contents).flatten.count 'G' = 1) := by
  unfold World.from_ascii
  by_cases hempty : levelLines contents = []
  · rw [hempty]
    simp
  · have hwidth := levelLines_width_pos contents hempty
    have hheight : (levelLines contents).length ≠ 0 := by
      simpa [List.length_eq_zero] using hempty
    rw [if_neg (by
      push_neg
      exact ⟨hwidth, hheight⟩)]
    dsimp only
    set width := ((levelLines contents).map List.length).foldr max 0 with hw
    set init : ParseAcc :=
      ⟨List.replicate (width * (levelLines contents).length) false,
        [], [], [], [], none, none⟩ with hinit
    have hspec := parseFold_spec cfg.tile_size width
      (cellsOfLines (levelLines contents)) init
    rw [cellChars_cellsOfLines] at hspec
    have hpc0 : pcount init = 0 := rfl
    have hgc0 : gcount init = 0 := rfl
    rw [hpc0, hgc0] at hspec
    cases hfold : parseFold cfg.tile_size width init
        (cellsOfLines (levelLines contents)) with
    | error e =>
      rw [hfold] at hspec
      simp only [hfold]
      constructor
      · rintro ⟨w, hcontra⟩
        exact absurd hcontra (by simp)
      · rintro ⟨_, hvalid, hP, hG⟩
        obtain ⟨acc2, hacc2⟩ := hspec.1.mpr ⟨hvalid, by omega, by omega⟩
        exact absurd hacc2 (by simp)
    | ok acc =>
      rw [hfold] at hspec
      have hok := hspec.1.mp ⟨acc, rfl⟩
      have hsome := hspec.2 acc rfl
      simp only [Option.isSome_none, Bool.false_eq_true, false_or] at hsome
      cases hps : acc.player_spawn with
      | none =>
        simp only [hfold, hps]
        constructor
        · rintro ⟨w, hcontra⟩
          exact absurd hcontra (by simp)
        · rintro ⟨_, hvalid, hP, hG⟩
          have : acc.player_spawn.isSome = true := hsome.1.mpr (by omega)
          rw [hps] at this
          exact absurd this (by simp)
      | some ps =>
        cases hgt : acc.goal_tile with
        | none =>
          simp only [hfold, hps, hgt]
          constructor
          · rintro ⟨w, hcontra⟩
            exact absurd hcontra (by simp)
          · rintro ⟨_, hvalid, hP, hG⟩
            have : acc.goal_tile.isSome = true := hsome.2.mpr (by omega)
            rw [hgt] at this
            exact absurd this (by simp)
        | some gt =>
          simp only [hfold, hps, hgt]
          constructor
          · intro _
            have hPpos : 0 < (levelLines contents).flatten.count 'P' :=
              hsome.1.mp (by rw [hps]; rfl)
            have hGpos : 0 < (levelLines contents).flatten.count 'G' :=
              hsome.2.mp (by rw [hgt]; rfl)
            exact ⟨hempty, hok.1, by omega, by omega⟩
          · intro _
            exact ⟨_, rfl⟩

/-- C7 witness: the level `"P.G\n###"` parses successfully, and dropping
the `P` makes it fail. -/
theorem from_ascii_ok_iff_witness :
    (∃ w, World.from_ascii
      ['P', '.', 'G', '\n', '#', '#', '#'] cfgDefault = .ok w) ∧
    ¬(∃ w, World.from_ascii
      ['.', '.', 'G', '\n', '#', '#', '#'] cfgDefault = .ok w) := by
  constructor
  · exact (from_ascii_ok_iff ['P', '.', 'G', '\n', '#', '#', '#']
      cfgDefault).mpr ⟨by decide, by decide, by decide, by decide⟩
  · intro hcontra
    have := (from_ascii_ok_iff ['.', '.', 'G', '\n', '#', '#', '#']
      cfgDefault).mp hcontra
    have hP := this.2.2.1
    revert hP
    decide

/-! ## C3 — player–enemy collision resolution -/

/-- The loop of `handle_player_enemy_collisions` classifies against the
first live overlapping enemy, in list order. -/
theorem classifyHit_eq_find (pr : Rect) (pb vy : ℚ) (invuln powered : Bool) :
    ∀ l : List (ℕ × Enemy),
      classifyHit pr pb vy invuln powered l =
        match l.find? (fun ie => ie.2.alive && decide (rects_intersect pr ie.2.rect)) with
        | none => .nothing
        | some (idx, e) =>
          if vy > 0 ∧ pb ≤ e.rect.y + 6 then .stomp idx
          else if invuln then .nothing
          else if powered then
            .powerDown (if e.rect.x + e.rect.w * (1 / 2) < pr.x + pr.w * (1 / 2) then 1 else -1)
          else .die := by
  intro l
  induction l with
  | nil => rfl
  | cons ie rest ih =>
    obtain ⟨idx, e⟩ := ie
    by_cases ha : e.alive = true
    · by_cases hi : rects_intersect pr e.rect
      · have hfind : ((idx, e) :: rest).find?
            (fun ie => ie.2.alive && decide (rects_intersect pr ie.2.rect)) =
              some (idx, e) := by
          simp [List.find?_cons, ha, hi]
        rw [hfind]
        unfold classifyHit
        rw [if_neg (by simp [ha]), if_neg (by simp [hi])]
      · have hfind : ((idx, e) :: rest).find?
            (fun ie => ie.2.alive && decide (rects_intersect pr ie.2.rect)) =
              rest.find?
                (fun ie => ie.2.alive && decide (rects_intersect pr ie.2.rect)) := by
          simp [List.find?_cons, hi]
        rw [hfind]
        unfold classifyHit
        rw [if_neg (by simp [ha]), if_pos (by simpa using hi)]
        exact ih
    · have halse : e.alive = false := by
        revert ha; cases e.alive <;> simp
      have hfind : ((idx, e) :: rest).find?
          (fun ie => ie.2.alive && decide (rects_intersect pr ie.2.rect)) =
            rest.find?
              (fun ie => ie.2.alive && decide (rects_intersect pr ie.2.rect)) := by
        simp [List.find?_cons, halse]
      rw [hfind]
      unfold classifyHit
      rw [if_pos halse]
      exact ih

/-- C3: the collision pass acts on the first live enemy (in list order)
whose rectangle intersects the player's, and on no other: on a stomp
(falling player, bottom edge within 6px of the enemy's top) that enemy is
killed, the player bounces at `stomp_bounce` and the score gains 100;
otherwise an invulnerable player is ignored entirely (the game state is
unchanged); otherwise a powered player loses power, becomes invulnerable
for `hurt_invuln_time`, and is knocked back away from the enemy and
forced airborne; otherwise the player dies.  With no live overlapping
enemy the game is unchanged. -/
theorem handle_player_enemy_collisions_spec (g : Game) :
    (g.enemies.enum.find?
        (fun ie => ie.2.alive && decide (rects_intersect g.player.rect ie.2.rect)) = none →
      g.handle_player_enemy_collisions = g) ∧
    (∀ idx e, g.enemies.enum.find?
        (fun ie => ie.2.alive && decide (rects_intersect g.player.rect ie.2.rect)) =
          some (idx, e) →
      (g.player.vel.y > 0 ∧ g.player.rect.y + g.player.rect.h ≤ e.rect.y + 6 →
        g.handle_player_enemy_collisions =
          { g with
            enemies := g.enemies.set idx { e with alive := false },
            player := { g.player with vel := ⟨g.player.vel.x, -g.config.stomp_bounce⟩ },
            score := satAddU32 g.score 100,
            high_score := max g.high_score (satAddU32 g.score 100) }) ∧
      (¬(g.player.vel.y > 0 ∧ g.player.rect.y + g.player.rect.h ≤ e.rect.y + 6) →
        g.player.is_invulnerable →
        g.handle_player_enemy_collisions = g) ∧
      (¬(g.player.vel.y > 0 ∧ g.player.rect.y + g.player.rect.h ≤ e.rect.y + 6) →
        ¬g.player.is_invulnerable → g.player.powered = true →
        g.handle_player_enemy_collisions =
          { g with player :=
            { g.player with
              powered := false
              invuln_timer := rmax g.config.hurt_invuln_time 0
              vel := ⟨(if e.rect.x + e.rect.w * (1 / 2) < g.player.rect.x + g.player.rect.w * (1 / 2) then 1 else -1) * g.config.hurt_knockback_x,
                      -g.config.hurt_knockback_y⟩
              pos := ⟨g.player.pos.x + (if e.rect.x + e.rect.w * (1 / 2) < g.player.rect.x + g.player.rect.w * (1 / 2) then 1 else -1) * 4,
                      g.player.pos.y⟩
              on_ground := false } }) ∧
      (¬(g.player.vel.y > 0 ∧ g.player.rect.y + g.player.rect.h ≤ e.rect.y + 6) →
        ¬g.player.is_invulnerable → g.player.powered = false →
        g.handle_player_enemy_collisions = g.player_died)) := by
  constructor
  · intro hnone
    unfold Game.handle_player_enemy_collisions
    dsimp only
    rw [classifyHit_eq_find, hnone]
  · intro idx e hfind
    have hget : g.enemies.get? idx = some e := by
      have hmem := List.mem_of_find?_eq_some hfind
      have := List.mem_enum_iff_getElem?.mp hmem
      simpa [List.get?_eq_getElem?] using this
    refine ⟨fun hstomp => ?_, fun hns hinv => ?_, fun hns hninv hpow => ?_,
      fun hns hninv hnpow => ?_⟩
    · unfold Game.handle_player_enemy_collisions
      dsimp only
      rw [classifyHit_eq_find, hfind]
      dsimp only
      rw [if_pos hstomp]
      dsimp only
      rw [hget]
      rfl
    · unfold Game.handle_player_enemy_collisions
      dsimp only
      rw [classifyHit_eq_find, hfind]
      dsimp only
      rw [if_neg hns, if_pos (by simpa [Player.is_invulnerable] using hinv)]
    · unfold Game.handle_player_enemy_collisions
      dsimp only
      rw [classifyHit_eq_find, hfind]
      dsimp only
      rw [if_neg hns,
        if_neg (by simpa [Player.is_invulnerable] using hninv), if_pos hpow]
      rfl
    · unfold Game.handle_player_enemy_collisions
      dsimp only
      rw [classifyHit_eq_find, hfind]
      dsimp only
      rw [if_neg hns,
        if_neg (by simpa [Player.is_invulnerable] using hninv),
        if_neg (by simp [hnpow])]

/-- An invulnerable, unpowered player overlapping `eAliveTest` sideways. -/
def pInvulnTest : Player := ⟨⟨4, 12⟩, ⟨0, 0⟩, false, ⟨22, 28⟩, 1, 0, 0, false, 1⟩

/-- A Playing-state game where the invulnerable player touches the live
enemy from the side. -/
def gInvulnTest : Game :=
  ⟨.Playing, 0, cfgDefault, wTest, pInvulnTest, [eAliveTest], [], [], 7, 7,
    inputIdle⟩

/-- C3 witness: the invulnerable side contact changes nothing — score,
enemy aliveness, player state and phase are all untouched. -/
theorem handle_player_enemy_collisions_spec_witness :
    gInvulnTest.handle_player_enemy_collisions = gInvulnTest := by
  have h := handle_player_enemy_collisions_spec gInvulnTest
  have hfind : gInvulnTest.enemies.enum.find?
      (fun ie => ie.2.alive && decide (rects_intersect gInvulnTest.player.rect ie.2.rect)) =
        some (0, eAliveTest) := by
    norm_num [gInvulnTest, List.enum, List.enumFrom, List.find?_cons, eAliveTest,
      pInvulnTest, rects_intersect, Player.rect, Enemy.rect, rect_at]
  refine (h.2 0 eAliveTest hfind).2.1 ?_ ?_
  · norm_num [gInvulnTest, pInvulnTest]
  · norm_num [gInvulnTest, pInvulnTest, Player.is_invulnerable]

/-! ## C6 — death zeroes the score, resets the level, keeps the phase -/

/-- C6: `player_died` (the shared path of enemy-contact death and
fall-off death) zeroes the score, restores coins and mushrooms from the
spawn templates, reinitialises the player and the enemies from their
spawns, and leaves the phase (and everything else) unchanged;
`check_fall_off` invokes exactly it below `world_height` pixels plus 200;
and the unpowered, vulnerable contact branch of the enemy-collision pass
invokes exactly it. -/
theorem player_died_spec (g : Game) :
    ((g.player_died).score = 0 ∧
     (g.player_died).state = g.state ∧
     (g.player_died).world.coins = g.coin_spawns ∧
     (g.player_died).world.mushrooms = g.mushroom_spawns ∧
     (g.player_died).player = Player.new g.world.player_spawn g.config ∧
     (g.player_died).enemies = resetEnemies g.enemies g.world.enemy_spawns
       { g.world with coins := g.coin_spawns, mushrooms := g.mushroom_spawns }
       g.config ∧
     (g.player_died).high_score = g.high_score ∧
     (g.player_died).config = g.config ∧
     (g.player_died).accumulator = g.accumulator ∧
     (g.player_died).world.solids = g.world.solids) ∧
    (g.check_fall_off =
      if g.player.pos.y > (g.world.height : ℚ) * g.config.tile_size + 200
      then g.player_died else g) ∧
    (∀ idx e, g.enemies.enum.find?
        (fun ie => ie.2.alive && decide (rects_intersect g.player.rect ie.2.rect)) =
          some (idx, e) →
      ¬(g.player.vel.y > 0 ∧ g.player.rect.y + g.player.rect.h ≤ e.rect.y + 6) →
      ¬g.player.is_invulnerable → g.player.powered = false →
      g.handle_player_enemy_collisions = g.player_died) := by
  refine ⟨⟨rfl, rfl, rfl, rfl, rfl, rfl, rfl, rfl, rfl, rfl⟩, rfl,
    fun idx e hfind hns hninv hnpow => ?_⟩
  unfold Game.handle_player_enemy_collisions
  dsimp only
  rw [classifyHit_eq_find, hfind]
  dsimp only
  rw [if_neg hns,
    if_neg (by simpa [Player.is_invulnerable] using hninv),
    if_neg (by simp [hnpow])]

/-- A vulnerable player far below the world. -/
def pFallTest : Player := ⟨⟨4, 10000⟩, ⟨0, 0⟩, false, ⟨22, 28⟩, 1, 0, 0, false, 0⟩

/-- A Playing-state game whose player has fallen off. -/
def gFallTest : Game :=
  ⟨.Playing, 0, cfgDefault, wTest, pFallTest, [eAliveTest], [], [], 500, 500,
    inputIdle⟩

/-- C6 witness: after a concrete fall-off the score is zeroed while the
phase is still Playing. -/
theorem player_died_spec_witness :
    (gFallTest.check_fall_off).score = 0 ∧
    (gFallTest.check_fall_off).state = GameState.Playing := by
  have h := player_died_spec gFallTest
  rw [h.2.1, if_pos (by norm_num [gFallTest, pFallTest, wTest, cfgDefault])]
  exact ⟨(h.1).1, (h.1).2.1⟩

/-! ## C5 — fixed-timestep accumulator invariant -/

theorem simLoop_acc (d : ℚ) (step : Game → Game) :
    ∀ k (acc : ℚ) (g : Game), (⌊acc / d⌋).toNat ≤ k → 0 < d → 0 ≤ acc →
      0 ≤ (simLoop d step acc g).1 ∧ (simLoop d step acc g).1 < d ∧
      ∃ n : ℕ, (simLoop d step acc g).1 = acc - n * d := by
  intro k
  induction k with
  | zero =>
    intro acc g hk hd hacc
    have hlt : acc < d := by
      by_contra hge
      push_neg at hge
      have h1 : (1 : ℚ) ≤ acc / d := (le_div_iff₀ hd).mpr (by linarith)
      have hfl : 1 ≤ ⌊acc / d⌋ := by exact_mod_cast Int.le_floor.mpr h1
      omega
    rw [simLoop.eq_def, dif_neg (by rintro ⟨_, hle⟩; linarith)]
    exact ⟨hacc, hlt, 0, by push_cast; ring⟩
  | succ n ih =>
    intro acc g hk hd hacc
    by_cases hcase : d ≤ acc
    · rw [simLoop.eq_def, dif_pos ⟨hd, hcase⟩]
      have heq : ⌊(acc - d) / d⌋ = ⌊acc / d⌋ - 1 := by
        rw [sub_div, div_self hd.ne']
        exact_mod_cast Int.floor_sub_int (acc / d) 1
      have h1 : (1 : ℚ) ≤ acc / d := (le_div_iff₀ hd).mpr (by linarith)
      have hfl : 1 ≤ ⌊acc / d⌋ := by exact_mod_cast Int.le_floor.mpr h1
      have hk2 : (⌊(acc - d) / d⌋).toNat ≤ n := by
        rw [heq]; omega
      obtain ⟨ha, hb, m, hm⟩ := ih (acc - d) (step g) hk2 hd (by linarith)
      exact ⟨ha, hb, m + 1, by rw [hm]; push_cast; ring⟩
    · rw [simLoop.eq_def, dif_neg (by rintro ⟨_, hle⟩; exact hcase hle)]
      push_neg at hcase
      exact ⟨hacc, hcase, 0, by push_cast; ring⟩

/-- C5: per-frame update clamps the frame time to `max_frame_time`, adds
it to the accumulator, and drains whole `fixed_dt` steps; afterwards the
accumulator again satisfies `0 ≤ accumulator < fixed_dt`, and its value is
the clamped-and-accumulated time minus a whole number of `fixed_dt`
subtractions (the fractional remainder persists). -/
theorem game_update_accumulator (g : Game) (captured : InputState)
    (frame_dt : ℚ)
    (hd : 0 < g.config.fixed_dt) (hm : 0 ≤ g.config.max_frame_time)
    (hf : 0 ≤ frame_dt) (h0 : 0 ≤ g.accumulator)
    (h1 : g.accumulator < g.config.fixed_dt) :
    0 ≤ (g.update captured frame_dt).accumulator ∧
    (g.update captured frame_dt).accumulator < g.config.fixed_dt ∧
    ∃ n : ℕ, (g.update captured frame_dt).accumulator =
      g.accumulator + rmin frame_dt g.config.max_frame_time -
        n * g.config.fixed_dt := by
  have hacc0 : 0 ≤ g.accumulator + rmin frame_dt g.config.max_frame_time := by
    have : 0 ≤ rmin frame_dt g.config.max_frame_time := by
      rw [rmin_eq_min]
      exact le_min hf hm
    linarith
  have key := simLoop_acc g.config.fixed_dt Game.doFixedStep
    ((⌊(g.accumulator + rmin frame_dt g.config.max_frame_time) / g.config.fixed_dt⌋).toNat)
    (g.accumulator + rmin frame_dt g.config.max_frame_time)
    { g.captureInput captured with
        accumulator := g.accumulator + rmin frame_dt g.config.max_frame_time }
    le_rfl hd hacc0
  exact ⟨key.1, key.2.1, key.2.2⟩

/-- C5 witness: a concrete frame keeps the accumulator inside
`[0, fixed_dt)`. -/
theorem game_update_accumulator_witness :
    0 ≤ (gInvulnTest.update inputIdle (1 / 30)).accumulator ∧
    (gInvulnTest.update inputIdle (1 / 30)).accumulator <
      cfgDefault.fixed_dt := by
  have h := game_update_accumulator gInvulnTest inputIdle (1 / 30)
    (by norm_num [gInvulnTest, cfgDefault])
    (by norm_num [gInvulnTest, cfgDefault])
    (by norm_num)
    (by norm_num [gInvulnTest])
    (by norm_num [gInvulnTest, cfgDefault])
  exact ⟨h.1, h.2.1⟩
